import Mathlib

/-!
Shallow embedding of the source-discovery and stub/source merge layer of the
couchbaselabs/mypy fork (files `mypy/find_sources.py` and
`mypy/stub_src_merge.py`), together with theorems settling the frozen claims
about it.

Conventions of the embedding:
* Filesystem paths are normalized relative paths, modelled as their list of
  components (`FPath := List String`); `os.path.join dir name` is
  `dir ++ [name]`, `os.path.split` removes the last component.  Inputs are
  assumed normalized, so `os.path.normpath` is the identity and is elided.
* The filesystem (mypy's `FileSystemCache` plus the direct `os.path.exists`
  call in `create_source_list`) is a structure of query functions.
* Python exceptions are explicit: `Except String` for `InvalidSourceList`,
  and a dedicated outcome type for the merge engine that distinguishes
  normal return, an escaping exception (`KeyError` / `RuntimeError`) and
  fuel exhaustion.  Recursive procedures take a fuel parameter; fuel only
  bounds the number of evaluation steps and no result at sufficient fuel
  depends on its exact value.
* `SourceFinder.package_cache` is a memoization table for `crawl_up_dir`;
  since it starts empty at each discovery run and only ever caches the
  function's own results, it is semantically transparent and is elided.
-/

/-- A normalized relative filesystem path, as its list of components. -/
abbrev FPath := List String

/-- `os.path.split`: split a path into parent and last component
(`("", "")` for the empty path, matching Python on `""`). -/
def splitPath (p : FPath) : FPath × String :=
  match p.reverse with
  | [] => ([], "")
  | last :: revInit => (revInit.reverse, last)

/-- Position of the extension dot for `os.path.splitext` on a bare file
name: the last dot that has some non-dot character strictly before it. -/
def splitextPos : List Char → Bool → Nat → Option Nat → Option Nat
  | [], _, _, acc => acc
  | c :: rest, seenNonDot, i, acc =>
    if c = '.' then
      splitextPos rest seenNonDot (i + 1) (if seenNonDot then some i else acc)
    else
      splitextPos rest true (i + 1) acc

/-- `os.path.splitext` restricted to a single path component (the Python
function only ever splits inside the last component). -/
def splitext (s : String) : String × String :=
  match splitextPos s.toList false 0 none with
  | none => (s, "")
  | some i => (⟨s.toList.take i⟩, ⟨s.toList.drop i⟩)

/-- Python string primitives, re-expressed over the character list so
that they compute by kernel reduction (the byte-position-based `String`
library functions do not): prefix test, suffix test, character
membership, suffix removal, and right-strip of dots. -/
def strStartsWith (s pre : String) : Bool := pre.toList.isPrefixOf s.toList

def strEndsWith (s suf : String) : Bool := suf.toList.isSuffixOf s.toList

def strContains (s : String) (c : Char) : Bool := s.toList.contains c

def strDropRight (s : String) (n : Nat) : String :=
  String.mk (s.toList.take (s.toList.length - n))

def rstripDots (s : String) : String :=
  String.mk ((s.toList.reverse.dropWhile (fun c => c = '.')).reverse)

/-- Python `str.isidentifier`, restricted to ASCII (the only identifiers the
code under analysis meets). -/
def isPyIdentifier (s : String) : Bool :=
  match s.toList with
  | [] => false
  | c :: rest => (c.isAlpha || c = '_') && rest.all (fun d => d.isAlpha || d.isDigit || d = '_')

/-- `PY_EXTENSIONS = tuple(PYTHON_EXTENSIONS)`; in `mypy.modulefinder`,
`PYTHON_EXTENSIONS` is the list `['.pyi', '.py']` (stub extension first). -/
def pyExtensions : List String := [".pyi", ".py"]

/-- The single-quote character, for rendering Python `repr` and quoted
error messages. -/
def sQuote : String := (Char.ofNat 39).toString

/-- Render a path the way the Python code renders the path string in
error messages. -/
def pathStr (p : FPath) : String := String.intercalate "/" p

/-- The filesystem oracle: mypy's `FileSystemCache` queries used by
`find_sources.py`, plus `path_exists` for the direct `os.path.exists`
call in `create_source_list`. -/
structure FSCache where
  isfile : FPath → Bool
  isdir : FPath → Bool
  listdir : FPath → List String
  init_under_package_root : FPath → Bool
  path_exists : FPath → Bool

/-- The two option flags of `mypy.options.Options` that `find_sources.py`
reads. -/
structure Options where
  merge_stub_into_src : Bool
  scripts_are_modules : Bool
deriving DecidableEq

/-- `mypy.modulefinder.BuildSource` (path, module, text, base_dir,
merge_with); `merge_with` is the overlay pairing added by this fork. -/
inductive BuildSource where
  | mk (path : Option FPath) (module : Option String) (text : Option String)
       (base_dir : Option FPath) (merge_with : Option BuildSource)

/-- Boolean equality of `BuildSource`s (structural). -/
def BuildSource.beq : BuildSource → BuildSource → Bool
  | .mk p1 m1 t1 b1 w1, .mk p2 m2 t2 b2 w2 =>
    p1 == p2 && m1 == m2 && t1 == t2 && b1 == b2 &&
      (match w1, w2 with
       | none, none => true
       | some a, some b => BuildSource.beq a b
       | _, _ => false)

/-- Proof-valued auxiliary (kept as a `def` so that all declarations up to
the theorem section are definitions): `beq` decides equality. -/
def BuildSource.beq_iff : ∀ a b : BuildSource, BuildSource.beq a b = true ↔ a = b
  | .mk p1 m1 t1 b1 none, .mk p2 m2 t2 b2 none => by
    simp [BuildSource.beq, and_assoc]
  | .mk p1 m1 t1 b1 none, .mk p2 m2 t2 b2 (some y) => by
    simp [BuildSource.beq]
  | .mk p1 m1 t1 b1 (some x), .mk p2 m2 t2 b2 none => by
    simp [BuildSource.beq]
  | .mk p1 m1 t1 b1 (some x), .mk p2 m2 t2 b2 (some y) => by
    simp [BuildSource.beq, BuildSource.beq_iff x y, and_assoc]

instance : DecidableEq BuildSource :=
  fun a b => decidable_of_iff (BuildSource.beq a b = true) (BuildSource.beq_iff a b)

/-- `module_join`: join module ids, accounting for a possibly empty parent. -/
def module_join (parent child : String) : String :=
  if parent ≠ "" then parent ++ "." ++ child else child

/-- `strip_py`: strip a trailing `.py` or `.pyi` suffix, `none` if neither
is present (checked in `PY_EXTENSIONS` order, `.pyi` first). -/
def strip_py (arg : String) : Option String :=
  if strEndsWith arg ".pyi" then some (strDropRight arg 4)
  else if strEndsWith arg ".py" then some (strDropRight arg 3)
  else none

/-- `SourceFinder.get_init_file`: look for `__init__.pyi` then
`__init__.py` in `dir`; the `.py` candidate also counts when the
filesystem reports it as under a package root. -/
def get_init_file (fs : FSCache) (dir : FPath) : Option FPath :=
  let f1 := dir ++ ["__init__.pyi"]
  if fs.isfile f1 then some f1
  else
    let f2 := dir ++ ["__init__.py"]
    if fs.isfile f2 then some f2
    else if fs.init_under_package_root f2 then some f2
    else none

/-- The recursion of `SourceFinder.crawl_up_dir`, realized structurally
on the reversed component list: the argument is `p.reverse`, so its head
is the directory's basename and its tail the reversed parent.  The empty
list is Python's `not dir` stopping case (`res = ''`, `base_dir = '.'`);
a present marker file with a valid-identifier basename recurses into the
parent and joins. -/
def crawl_up_dir_rev (fs : FSCache) : List String → Except String (String × FPath)
  | [] => Except.ok ("", ["."])
  | base :: revParent =>
    let p := (base :: revParent).reverse
    if get_init_file fs p = none ∨ base = "" then
      Except.ok ("", p)
    else if isPyIdentifier base = false then
      Except.error (base ++ " is not a valid Python package name")
    else
      match crawl_up_dir_rev fs revParent with
      | Except.error e => Except.error e
      | Except.ok (parent, base_dir) =>
          Except.ok (module_join parent base, base_dir)

/-- `SourceFinder.crawl_up_dir`: module prefix and base dir of a
directory, raising `InvalidSourceList` (modelled as `Except.error`) on an
invalid package name.  The memoizing `package_cache` is elided (see
header). -/
def crawl_up_dir (fs : FSCache) (p : FPath) : Except String (String × FPath) :=
  crawl_up_dir_rev fs p.reverse

/-- `SourceFinder.crawl_up`: module id and base directory of a `.py[i]`
file path. -/
def crawl_up (fs : FSCache) (p : FPath) : Except String (String × FPath) :=
  let (dir, m0) := splitPath p
  -- `mod = strip_py(mod) or mod`: an empty strip result is falsy in Python
  let m1 := match strip_py m0 with
    | some s => if s = "" then m0 else s
    | none => m0
  match crawl_up_dir fs dir with
  | Except.error e => Except.error e
  | Except.ok (base, base_dir) =>
      Except.ok (if m1 = "__init__" ∨ m1 = "" then base else module_join base m1, base_dir)

/-- `keyfunc`: sort key for directory listings; rank from
`PY_MAP = {'.pyi': 0, '.py': 1}` with default `-1`. -/
def keyfunc (name : String) : String × Int :=
  let (base, suffix) := splitext name
  (base, if suffix = ".pyi" then 0 else if suffix = ".py" then 1 else -1)

/-- Lexicographic code-point comparison of character lists (Python string
`<`). -/
def ltChars : List Char → List Char → Bool
  | [], [] => false
  | [], _ :: _ => true
  | _ :: _, [] => false
  | c :: cs, d :: ds =>
    if c.toNat < d.toNat then true
    else if d.toNat < c.toNat then false
    else ltChars cs ds

/-- `a` sorts no later than `b` under `keyfunc` order (Python tuple
comparison of the `(base, rank)` keys). -/
def keyLe (a b : String) : Bool :=
  let ka := keyfunc a
  let kb := keyfunc b
  if ka.1 = kb.1 then decide (ka.2 ≤ kb.2) else ltChars ka.1.toList kb.1.toList

/-- Stable insertion into a `keyLe`-sorted list (the new element goes
before elements of equal key, matching the stability of Python sort for
the original relative order). -/
def insertSorted (x : String) : List String → List String
  | [] => [x]
  | y :: ys => if keyLe x y then x :: y :: ys else y :: insertSorted x ys

/-- `names.sort(key=keyfunc)`: stable ascending sort of a directory
listing. -/
def sortNames : List String → List String
  | [] => []
  | x :: xs => insertSorted x (sortNames xs)

/-- The name-exclusion test at the top of `expand_dir`'s listing walk. -/
def excludedName (name : String) : Bool :=
  name = "__pycache__" || name = "py.typed" || strStartsWith name "." ||
    strEndsWith name "~" || strEndsWith name ".pyc" || strEndsWith name ".pyo"

mutual

/-- `SourceFinder.expand_dir`: convert a directory to a list of sources.
`none` means the fuel ran out before the Python code would have returned
(in particular, `none` at every fuel witnesses divergence). -/
def expand_dir (fuel : Nat) (fs : FSCache) (merge_stub_into_src : Bool)
    (arg : FPath) (mod_pfx : String) :
    Option (Except String (List BuildSource)) :=
  match fuel with
  | 0 => none
  | fuel + 1 =>
    let f := get_init_file fs arg
    if mod_pfx ≠ "" ∧ f = none then some (Except.ok [])
    else
      match crawl_up_dir fs arg with
      | Except.error e => some (Except.error e)
      | Except.ok (top_mod, base_dir) =>
        let mp := if f.isSome ∧ mod_pfx = "" then top_mod ++ "." else mod_pfx
        let sources0 :=
          if mp ≠ "" then
            [BuildSource.mk f (some (rstripDots mp)) none
              (some base_dir) none]
          else []
        let names := sortNames (fs.listdir arg)
        expand_dir_loop fuel fs merge_stub_into_src arg mp base_dir
          names.head? names.tail [] sources0

/-- The `while name is not None` listing walk of `expand_dir`, including
its bug: the exclusion branch `continue`s without advancing the iterator,
so an excluded entry repeats the same state forever.  State: current
`name`, remaining iterator, `seen` set (as a list), accumulated sources.
The `except StopIteration: return sources` around the bare
`next(name_iter)` of the directory branch is the `[]` iterator case
there. -/
def expand_dir_loop (fuel : Nat) (fs : FSCache) (merge_stub_into_src : Bool)
    (arg : FPath) (mod_pfx : String) (base_dir : FPath)
    (name? : Option String) (iter : List String)
    (seen : List String) (sources : List BuildSource) :
    Option (Except String (List BuildSource)) :=
  match fuel with
  | 0 => none
  | fuel + 1 =>
    match name? with
    | none => some (Except.ok sources)
    | some name =>
      if excludedName name then
        -- BUG faithfully modelled: `continue` leaves `name` unchanged
        expand_dir_loop fuel fs merge_stub_into_src arg mod_pfx base_dir
          (some name) iter seen sources
      else
        let path := arg ++ [name]
        if fs.isdir path then
          match expand_dir fuel fs merge_stub_into_src path (mod_pfx ++ name ++ ".") with
          | none => none
          | some (Except.error e) => some (Except.error e)
          | some (Except.ok sub) =>
            let seen2 := if sub ≠ [] then seen ++ [name] else seen
            let sources2 := if sub ≠ [] then sources ++ sub else sources
            match iter with
            | [] => some (Except.ok sources2)   -- StopIteration caught
            | n :: rest =>
              expand_dir_loop fuel fs merge_stub_into_src arg mod_pfx base_dir
                (some n) rest seen2 sources2
        else
          let (base, suffix) := splitext name
          let name2 := iter.head?
          let iter2 := iter.tail
          if base = "__init__" then
            expand_dir_loop fuel fs merge_stub_into_src arg mod_pfx base_dir
              name2 iter2 seen sources
          else if ¬ seen.contains base ∧ ¬ strContains base '.' ∧ pyExtensions.contains suffix then
            let src := BuildSource.mk (some path) (some (mod_pfx ++ base)) none
              (some base_dir) none
            let src2 :=
              match name2 with
              | none => src
              | some nm =>
                let nb := (splitext nm).1
                if merge_stub_into_src = true ∧ nb = base then
                  BuildSource.mk (some (arg ++ [nm])) (some (mod_pfx ++ nb)) none
                    (some base_dir) (some src)
                else src
            expand_dir_loop fuel fs merge_stub_into_src arg mod_pfx base_dir
              name2 iter2 (seen ++ [base]) (sources ++ [src2])
          else
            expand_dir_loop fuel fs merge_stub_into_src arg mod_pfx base_dir
              name2 iter2 seen sources

end

/-- Whether a path string ends in `.pyi` (the `partition` predicate of
`create_source_list`, applied to the path's last component). -/
def endsWithPyi (f : FPath) : Bool :=
  match f.getLast? with
  | some s => strEndsWith s ".pyi"
  | none => false

/-- `partition`: split entries into (false-entries, true-entries),
preserving order (Python `filterfalse` / `filter` over a teed iterator). -/
def partition (pred : FPath → Bool) (files : List FPath) : List FPath × List FPath :=
  (files.filter (fun f => !(pred f)), files.filter pred)

/-- The `for f in source_then_stubs` loop of `create_source_list`. -/
def cslLoop (fuel : Nat) (opts : Options) (fs : FSCache) (allow_empty_dir : Bool) :
    List FPath → List FPath → List BuildSource →
    Option (Except String (List BuildSource))
  | [], _, targets => some (Except.ok targets)
  | f :: rest, found_targets, targets =>
    if f ∈ found_targets then
      cslLoop fuel opts fs allow_empty_dir rest found_targets targets
    else
      let (dir, fname) := splitPath f
      let (fbase, ext) := splitext fname
      let found2 := found_targets ++ [f]
      if pyExtensions.contains ext then
        match crawl_up fs f with
        | Except.error e => some (Except.error e)
        | Except.ok (name, base_dir) =>
          if opts.merge_stub_into_src = true ∧ ext = ".py" then
            let stub_file := dir ++ [fbase ++ ".pyi"]
            if fs.path_exists stub_file then
              let merge_stub := BuildSource.mk (some stub_file) (some name) none
                (some base_dir) none
              cslLoop fuel opts fs allow_empty_dir rest (found2 ++ [stub_file])
                (targets ++ [BuildSource.mk (some f) (some name) none
                  (some base_dir) (some merge_stub)])
            else
              cslLoop fuel opts fs allow_empty_dir rest found2
                (targets ++ [BuildSource.mk (some f) (some name) none (some base_dir) none])
          else
            cslLoop fuel opts fs allow_empty_dir rest found2
              (targets ++ [BuildSource.mk (some f) (some name) none (some base_dir) none])
      else if fs.isdir f then
        match expand_dir fuel fs opts.merge_stub_into_src f "" with
        | none => none
        | some (Except.error e) => some (Except.error e)
        | some (Except.ok sub_targets) =>
          if sub_targets = [] ∧ allow_empty_dir = false then
            some (Except.error
              ("There are no .py[i] files in directory " ++ sQuote ++ pathStr f ++ sQuote))
          else
            cslLoop fuel opts fs allow_empty_dir rest found2 (targets ++ sub_targets)
      else
        let m := if opts.scripts_are_modules then some fname else none
        cslLoop fuel opts fs allow_empty_dir rest found2
          (targets ++ [BuildSource.mk (some f) m none none none])

/-- `create_source_list`: from a list of source files/directories, make a
list of `BuildSource`s; `Except.error` models a raised
`InvalidSourceList`, `none` fuel exhaustion inside `expand_dir`. -/
def create_source_list (fuel : Nat) (files : List FPath) (opts : Options)
    (fs : FSCache) (allow_empty_dir : Bool) :
    Option (Except String (List BuildSource)) :=
  let (other, stubs) := partition endsWithPyi files
  cslLoop fuel opts fs allow_empty_dir (other ++ stubs) [] []

/-! ## The merge engine: `mypy/stub_src_merge.py`

Node model: one inductive `PNode` covers the mypy node kinds the merge
engine dispatches on or inspects (`Var`, `AssignmentStmt`, `FuncDef`,
`TypeInfo`, `Decorator`, `NameExpr`, `MemberExpr`, `EllipsisExpr`,
`TempNode`, `CallExpr`, `IfStmt`), plus `otherNode tag` for any other
node kind, carrying its Python class name as `tag`.  A `TypeInfo` and
its `ClassDef` (`defn`) are folded into one constructor: `defn_name`,
`defn_type_vars` and `defn_body` are the `defn.name`, `defn.type_vars`
and `defn.defs.body` slots of the class definition node.  Type objects
(`mypy.types.Type`) are only ever copied by the merge engine, never
inspected, so they are opaque tokens (`MType := Nat`); `arg_kinds`
entries are the small integers mypy uses for argument kinds.  Every
constructor carries the node's source position `(line, column)`.
Symbol tables are ordered association lists `name ↦ (objId, node)`
where `objId` models Python object identity of the `SymbolTableNode`
entry (the `is` comparison in `merge_symbol_tables`).
-/

/-- Opaque stand-in for `mypy.types.Type` annotation objects. -/
abbrev MType := Nat

inductive PNode : Type where
  | var (name : String) (type : Option MType) (line column : Int)
  | assignmentStmt (lvalues : List PNode) (rvalue : PNode)
      (type unanalyzed_type : Option MType) (line column : Int)
  | funcDef (name : String) (arg_names : List String) (arg_kinds : List Nat)
      (type unanalyzed_type : Option MType) (body : List PNode) (line column : Int)
  | typeInfo (names : List (String × Nat × PNode)) (type_vars : List String)
      (metaclass_type : Option MType) (runtime_protocol : Bool)
      (defn_name : String) (defn_type_vars : List MType)
      (defn_body : List PNode) (line column : Int)
  | decorator (func : PNode) (decorators : List PNode) (line column : Int)
  | nameExpr (name : String) (line column : Int)
  | memberExpr (name : String) (line column : Int)
  | ellipsisExpr (line column : Int)
  | tempNode (line column : Int)
  | callExpr (callee : PNode) (args : List PNode)
      (arg_names : List (Option String)) (line column : Int)
  | ifStmt (bodies : List (List PNode)) (line column : Int)
  | otherNode (tag : String) (line column : Int)

/-- A symbol table (`SymbolTable`): insertion-ordered map from name to
symbol-table entry, an entry being (object identity, node). -/
abbrev SymTable := List (String × Nat × PNode)

/-- An insertion-ordered map from name to node (the `stub_assigns` /
`stub_funcs` dictionaries of the class merge). -/
abbrev NodeMap := List (String × PNode)

/-- `type(node).__qualname__` / `type(node).__name__` of the modelled
Python node. -/
def typeName : PNode → String
  | .var .. => "Var"
  | .assignmentStmt .. => "AssignmentStmt"
  | .funcDef .. => "FuncDef"
  | .typeInfo .. => "TypeInfo"
  | .decorator .. => "Decorator"
  | .nameExpr .. => "NameExpr"
  | .memberExpr .. => "MemberExpr"
  | .ellipsisExpr .. => "EllipsisExpr"
  | .tempNode .. => "TempNode"
  | .callExpr .. => "CallExpr"
  | .ifStmt .. => "IfStmt"
  | .otherNode tag _ _ => tag

/-- `type(x).__qualname__` where `x` may be the `None` padding produced
by `itertools.zip_longest`. -/
def typeNameO : Option PNode → String
  | some n => typeName n
  | none => "NoneType"

/-- The `.line` attribute (every mypy node has one). -/
def nodeLine : PNode → Int
  | .var _ _ l _ => l
  | .assignmentStmt _ _ _ _ l _ => l
  | .funcDef _ _ _ _ _ _ l _ => l
  | .typeInfo _ _ _ _ _ _ _ l _ => l
  | .decorator _ _ l _ => l
  | .nameExpr _ l _ => l
  | .memberExpr _ l _ => l
  | .ellipsisExpr l _ => l
  | .tempNode l _ => l
  | .callExpr _ _ _ l _ => l
  | .ifStmt _ l _ => l
  | .otherNode _ l _ => l

/-- The `.column` attribute. -/
def nodeColumn : PNode → Int
  | .var _ _ _ c => c
  | .assignmentStmt _ _ _ _ _ c => c
  | .funcDef _ _ _ _ _ _ _ c => c
  | .typeInfo _ _ _ _ _ _ _ _ c => c
  | .decorator _ _ _ c => c
  | .nameExpr _ _ c => c
  | .memberExpr _ _ c => c
  | .ellipsisExpr _ c => c
  | .tempNode _ c => c
  | .callExpr _ _ _ _ c => c
  | .ifStmt _ _ c => c
  | .otherNode _ _ c => c

def isTempNode : PNode → Bool
  | .tempNode .. => true
  | _ => false

def isEllipsisExpr : PNode → Bool
  | .ellipsisExpr .. => true
  | _ => false

/-- `FuncDef.name()` resp. `Decorator.func.name()`. -/
def funcName : PNode → String
  | .funcDef n _ _ _ _ _ _ _ => n
  | .decorator f _ _ _ => funcName f
  | _ => ""

/-- One diagnostic as appended to the `Errors` sink by
`Errors.report(line=line, message=msg, column=column)`. -/
structure Diag where
  message : String
  line : Int
  column : Int
deriving DecidableEq

/-- The merge engine state observable through our claims: the scoped
current report position (`self._line`, `self._column`) and the
diagnostics accumulated in the `Errors` sink. -/
structure MergeSt where
  line : Int
  column : Int
  diags : List Diag
deriving DecidableEq

/-- The state right after `MergeFiles.__init__` with a fresh `Errors`
sink: `_line = -1`, `_column = 0`, no diagnostics. -/
def initSt : MergeSt := MergeSt.mk (-1) 0 []

/-- `MergeFiles.report`: line/column default to the last known position. -/
def report (st : MergeSt) (msg : String) (line column : Option Int) : MergeSt :=
  MergeSt.mk st.line st.column
    (st.diags ++ [Diag.mk msg (line.getD st.line) (column.getD st.column)])

/-- Outcome of a merge procedure: normal return with the updated state, a
Python exception escaping the merge (`KeyError` from an unguarded `del`,
or the defensive `RuntimeError`), or fuel exhaustion of the model. -/
inductive MOut (α : Type) where
  | ok (val : α) (st : MergeSt)
  | exn (kind msg : String)
  | out

/-- Render Python `str.format` of an `Optional[str]` value. -/
def fmtOptStr : Option String → String
  | some s => s
  | none => "None"

/-- Python `repr` of a list of strings, e.g. `['x', 'y']`. -/
def reprStrList (xs : List String) : String :=
  "[" ++ String.intercalate ", " (xs.map (fun s => sQuote ++ s ++ sQuote)) ++ "]"

/-- `itertools.zip_longest`, padding the shorter list with `None`
(structurally recursive on the first list). -/
def zipLongest {α β : Type} : List α → List β → List (Option α × Option β)
  | [], ys => ys.map (fun y => (none, some y))
  | x :: xs, ys => (some x, ys.head?) :: zipLongest xs ys.tail

/-- Ordered-dict lookup. -/
def assocLookup {α : Type} : List (String × α) → String → Option α
  | [], _ => none
  | (k, v) :: rest, key => if k = key then some v else assocLookup rest key

/-- Ordered-dict assignment `d[k] = v`: replace in place if the key
exists (keeping its position), else append. -/
def assocSet {α : Type} : List (String × α) → String → α → List (String × α)
  | [], key, v => [(key, v)]
  | (k, w) :: rest, key, v =>
    if k = key then (k, v) :: rest else (k, w) :: assocSet rest key v

/-- Ordered-dict `del d[k]` for a key known to be present (the caller
checks; an absent key is the `KeyError` case, handled at call sites). -/
def assocErase {α : Type} : List (String × α) → String → List (String × α)
  | [], _ => []
  | (k, v) :: rest, key =>
    if k = key then rest else (k, v) :: assocErase rest key

/-- `MergeFiles.simple_assignment_name`: the name of a single-target
simple assignment; `useMember` selects the `l_value_type = MemberExpr`
call sites, `rep` is the `report` flag. -/
def simple_assignment_name (st : MergeSt) (node : PNode)
    (useMember : Bool) (rep : Bool) : Option String × MergeSt :=
  match node with
  | .assignmentStmt lvalues _ _ _ _ _ =>
    match lvalues with
    | [l] =>
      match l, useMember with
      | .nameExpr n _ _, false => (some n, st)
      | .memberExpr n _ _, true => (some n, st)
      | _, _ =>
        if rep then
          (none, report st
            ("l-values must be simple name expressions, is " ++ typeName l) none none)
        else (none, st)
    | _ =>
      if rep then (none, report st "assignment has more than one l-values" none none)
      else (none, st)
  | _ => (none, st)  -- unreachable: all call sites pass an AssignmentStmt

/-- `MergeFiles.check_no_explicit_default`. -/
def check_no_explicit_default (st : MergeSt) (default_node node : PNode)
    (name : String) : MergeSt :=
  if ¬ isTempNode node ∧ ¬ isEllipsisExpr default_node then
    report st
      ("stub should not contain default value, " ++ name ++ " has " ++
        typeName default_node) none none
  else st

/-- `MergeFiles.merge_variables` (a static method; copies the stub
variable type unconditionally, no reporting). -/
def merge_variables (src stub : PNode) : PNode :=
  match src, stub with
  | .var n _ l c, .var _ t _ _ => .var n t l c
  | _, _ => src

/-- `MergeFiles.merge_assignment`: copy `type` and `unanalyzed_type`
from the stub assignment onto the source assignment, then check the stub
carries no explicit default. -/
def merge_assignment (st : MergeSt) (src stub : PNode) : PNode × MergeSt :=
  match src, stub with
  | .assignmentStmt lv rv _ _ l c, .assignmentStmt lv2 rv2 t2 u2 l2 c2 =>
    let src2 := PNode.assignmentStmt lv rv t2 u2 l c
    let (stub_name, st) :=
      simple_assignment_name st (.assignmentStmt lv2 rv2 t2 u2 l2 c2) false true
    let st := check_no_explicit_default st rv2 (.assignmentStmt lv2 rv2 t2 u2 l2 c2)
      (fmtOptStr stub_name)
    (src2, st)
  | _, _ => (src, st)

/-- `MergeFiles.merge_func_definition`: equal argument-name lists copy
the stub signature (type, arg kinds, unanalyzed type); unequal ones
report once and change nothing. -/
def merge_func_definition (st : MergeSt) (src stub : PNode) : PNode × MergeSt :=
  match src, stub with
  | .funcDef sn sargs _ _ _ sbody sl sc,
    .funcDef _ targs tkinds tty tu _ tl _ =>
    if sargs = targs then
      (PNode.funcDef sn sargs tkinds tty tu sbody sl sc, st)
    else
      (src, report st
        ("arg conflict of src " ++ reprStrList sargs ++ " and stub (line " ++
          toString tl ++ ") " ++ reprStrList targs) none none)
  | _, _ => (src, st)

/-- `MergeFiles.decorator_name_check`: `True` iff the two names match;
mismatch reports. -/
def decorator_name_check (st : MergeSt) (srcName stubName : String) :
    Bool × MergeSt :=
  if srcName ≠ stubName then
    (false, report st
      ("conflict of src " ++ srcName ++ " and stub " ++ stubName ++ " decorator name")
      none none)
  else (true, st)

/-- The first loop of `decorator_argument_checks`: positional comparison
of the keyword-argument name lists (`zip_longest`, pad `None`), with an
explicit `line=src.line` on the report; `break` on the first mismatch. -/
def argNameLoop (st : MergeSt) (pairs : List (Option String × Option String))
    (srcLine : Int) : MergeSt :=
  match pairs with
  | [] => st
  | (l, r) :: rest =>
    if l ≠ r then
      report st
        ("conflict of src " ++ fmtOptStr l ++ " and stub " ++ fmtOptStr r ++
          " decorator argument name") (some srcLine) none
    else argNameLoop st rest srcLine

/-- The second loop of `decorator_argument_checks`: every stub keyword
argument must have a placeholder default. -/
def defaultLoop (st : MergeSt) (srcCall : PNode)
    (pairs : List (Option String × PNode)) : MergeSt :=
  match pairs with
  | [] => st
  | (name, default_node) :: rest =>
    defaultLoop (check_no_explicit_default st default_node srcCall (fmtOptStr name))
      srcCall rest

/-- `MergeFiles.decorator_argument_checks` (returns `None` in Python:
its conflicts do not interrupt the caller). -/
def decorator_argument_checks (st : MergeSt) (src stub : PNode) : MergeSt :=
  match src, stub with
  | .callExpr _ _ srcAN srcLine _, .callExpr _ stubArgs stubAN _ _ =>
    let st := argNameLoop st
      ((zipLongest srcAN stubAN).map (fun p => (p.1.join, p.2.join))) srcLine
    defaultLoop st src (stubAN.zip stubArgs)
  | _, _ => st  -- unreachable: both sides are CallExpr at the call site

/-- The `for l, r in itertools.zip_longest(...)` walk of
`merge_decorators`; returns whether the loop `break`-ed (suppressing the
`for ... else` merge of the underlying functions). -/
def decoratorPairChecks (st : MergeSt) :
    List (Option PNode × Option PNode) → Bool × MergeSt
  | [] => (false, st)
  | (l, r) :: rest =>
    if typeNameO l ≠ typeNameO r then
      (true, report st
        ("conflict of src " ++ typeNameO l ++ " and stub " ++ typeNameO r ++
          " decorator") none none)
    else
      match l, r with
      | some (.nameExpr ln ll lc), some (.nameExpr rn _ _) =>
        let (same, st) := decorator_name_check st ln rn
        if same then decoratorPairChecks st rest else (true, st)
      | some (.callExpr lcallee largs lan lline lcol),
        some (.callExpr rcallee rargs ran rline rcol) =>
        (match lcallee, rcallee with
         | .nameExpr lcn _ _, .nameExpr rcn _ _ =>
           let (same, st) := decorator_name_check st lcn rcn
           if ¬ same then (true, st)
           else
             let st := decorator_argument_checks st
               (.callExpr lcallee largs lan lline lcol)
               (.callExpr rcallee rargs ran rline rcol)
             decoratorPairChecks st rest
         | _, _ => decoratorPairChecks st rest)
      | _, _ => decoratorPairChecks st rest

/-- `MergeFiles.collect_assign_and_funcs`: collect the stub class body
into the assignment map and the function map (both insertion-ordered). -/
def collect_assign_and_funcs (st : MergeSt) :
    List PNode → NodeMap → NodeMap → NodeMap × NodeMap × MergeSt
  | [], assigns, funcs => (assigns, funcs, st)
  | entry :: rest, assigns, funcs =>
    match entry with
    | .assignmentStmt .. =>
      let (name, st) := simple_assignment_name st entry false true
      match name with
      | some n => collect_assign_and_funcs st rest (assocSet assigns n entry) funcs
      | none => collect_assign_and_funcs st rest assigns funcs
    | .decorator .. =>
      collect_assign_and_funcs st rest assigns (assocSet funcs (funcName entry) entry)
    | .funcDef .. =>
      collect_assign_and_funcs st rest assigns (assocSet funcs (funcName entry) entry)
    | _ => collect_assign_and_funcs st rest assigns funcs

/-- `MergeFiles.enrich_src_assign_from_stub`: match a constructor-body
attribute assignment against the stub assignment map; on a hit copy
type/unanalyzed type and consume the entry, on a miss report. -/
def enrich_src_assign_from_stub (st : MergeSt) (src_assign : PNode)
    (stub_assign : NodeMap) : PNode × NodeMap × MergeSt :=
  let (name, st) := simple_assignment_name st src_assign true false
  match name with
  | some n =>
    (match assocLookup stub_assign n with
     | some stubStmt =>
       (match src_assign, stubStmt with
        | .assignmentStmt lv rv _ _ l c, .assignmentStmt _ _ t2 u2 _ _ =>
          (PNode.assignmentStmt lv rv t2 u2 l c, assocErase stub_assign n, st)
        | _, _ => (src_assign, assocErase stub_assign n, st))
     | none =>
       (src_assign, stub_assign,
        report st ("no stub definition for class member " ++ n) none none))
  | none => (src_assign, stub_assign, st)

/-- The inner statement walk of one conditional branch inside
`merge_class_func_def`'s constructor enrichment. -/
def ifPartsWalk (st : MergeSt) :
    List PNode → NodeMap → List PNode × NodeMap × MergeSt
  | [], stubs => ([], stubs, st)
  | part :: rest, stubs =>
    match part with
    | .assignmentStmt .. =>
      let (part2, stubs2, st2) := enrich_src_assign_from_stub st part stubs
      let (rest2, stubs3, st3) := ifPartsWalk st2 rest stubs2
      (part2 :: rest2, stubs3, st3)
    | _ =>
      let (rest2, stubs2, st2) := ifPartsWalk st rest stubs
      (part :: rest2, stubs2, st2)

/-- Walk of the branch blocks of an `IfStmt` inside the constructor
enrichment. -/
def ifBlocksWalk (st : MergeSt) :
    List (List PNode) → NodeMap → List (List PNode) × NodeMap × MergeSt
  | [], stubs => ([], stubs, st)
  | b :: rest, stubs =>
    let (b2, stubs2, st2) := ifPartsWalk st b stubs
    let (rest2, stubs3, st3) := ifBlocksWalk st2 rest stubs2
    (b2 :: rest2, stubs3, st3)

/-- The `for init_part in src.body.body` constructor-enrichment walk of
`merge_class_func_def`: direct assignments, plus one level of nesting
inside conditional branches. -/
def initBodyWalk (st : MergeSt) :
    List PNode → NodeMap → List PNode × NodeMap × MergeSt
  | [], stubs => ([], stubs, st)
  | part :: rest, stubs =>
    match part with
    | .assignmentStmt .. =>
      let (part2, stubs2, st2) := enrich_src_assign_from_stub st part stubs
      let (rest2, stubs3, st3) := initBodyWalk st2 rest stubs2
      (part2 :: rest2, stubs3, st3)
    | .ifStmt bodies l c =>
      let (bodies2, stubs2, st2) := ifBlocksWalk st bodies stubs
      let (rest2, stubs3, st3) := initBodyWalk st2 rest stubs2
      (PNode.ifStmt bodies2 l c :: rest2, stubs3, st3)
    | _ =>
      let (rest2, stubs2, st2) := initBodyWalk st rest stubs
      (part :: rest2, stubs2, st2)

/-- The two leftover-reporting loops at the end of `merge_type_info`. -/
def reportLeftAssigns (st : MergeSt) : NodeMap → MergeSt
  | [] => st
  | (k, v) :: rest =>
    reportLeftAssigns
      (report st ("no source for assign " ++ k ++ " @stub:" ++ toString (nodeLine v))
        none none) rest

def reportLeftFuncs (st : MergeSt) : NodeMap → MergeSt
  | [] => st
  | (k, v) :: rest =>
    reportLeftFuncs
      (report st ("no source for func " ++ k ++ " @stub:" ++ toString (nodeLine v))
        none none) rest

mutual

/-- `MergeFiles.merge_nodes`: the kind dispatch, wrapped in
`report_from_element(src)` which pushes the current report position on
entry and restores it on exit.  Faithfully modelled bug: the Python code
reads `getattr(src, "line", ...)` for **both** the line and the column
(`report_from_element` line 99), so the scoped column is set to the
node's line, not its column. -/
def merge_nodes (fuel : Nat) (st : MergeSt) (src stub : PNode) : MOut PNode :=
  match fuel with
  | 0 => MOut.out
  | fuel + 1 =>
    let oldLine := st.line
    let oldColumn := st.column
    let st := MergeSt.mk (nodeLine src) (nodeLine src) st.diags
    let core : MOut PNode :=
      if typeName src ≠ typeName stub then
        MOut.ok src (report st
          ("conflict of src " ++ typeName src ++ " and stub:" ++
            toString (nodeLine stub) ++ " " ++ typeName stub ++ " definition")
          none none)
      else
        match src with
        | .var .. => MOut.ok (merge_variables src stub) st
        | .assignmentStmt .. =>
          let (n, st2) := merge_assignment st src stub
          MOut.ok n st2
        | .funcDef .. =>
          let (n, st2) := merge_func_definition st src stub
          MOut.ok n st2
        | .typeInfo .. => merge_type_info fuel st src stub
        | .decorator .. => merge_decorators fuel st src stub
        | _ =>
          MOut.exn "RuntimeError"
            ("cannot merge " ++ typeName src ++ " with " ++ typeName stub)
    match core with
    | MOut.ok n st2 => MOut.ok n (MergeSt.mk oldLine oldColumn st2.diags)
    | MOut.exn k m => MOut.exn k m
    | MOut.out => MOut.out

/-- `MergeFiles.merge_symbol_tables`: the `for stub_symbol_name,
stub_symbol in stub.items()` loop; absent names are inserted, identical
entries (`src_symbol is stub_symbol`, modelled by equal object ids) are
skipped, distinct entries have their nodes merged in place. -/
def merge_symbol_tables (fuel : Nat) (st : MergeSt) (src stub : SymTable) :
    MOut SymTable :=
  match fuel with
  | 0 => MOut.out
  | fuel + 1 =>
    match stub with
    | [] => MOut.ok src st
    | (name, sym) :: rest =>
      match assocLookup src name with
      | none => merge_symbol_tables fuel st (src ++ [(name, sym)]) rest
      | some srcSym =>
        if srcSym.1 = sym.1 then
          merge_symbol_tables fuel st src rest
        else
          match merge_nodes fuel st srcSym.2 sym.2 with
          | MOut.ok merged st2 =>
            merge_symbol_tables fuel st2 (assocSet src name (srcSym.1, merged)) rest
          | MOut.exn k m => MOut.exn k m
          | MOut.out => MOut.out

/-- `MergeFiles.merge_decorators`: pairwise-check the decorator lists;
if no check `break`-ed, merge the underlying functions (`for ... else`). -/
def merge_decorators (fuel : Nat) (st : MergeSt) (src stub : PNode) : MOut PNode :=
  match fuel with
  | 0 => MOut.out
  | fuel + 1 =>
    match src, stub with
    | .decorator sf sdecs sl sc, .decorator tf tdecs _ _ =>
      let (broke, st) := decoratorPairChecks st (zipLongest sdecs tdecs)
      if broke then
        MOut.ok (PNode.decorator sf sdecs sl sc) st
      else
        match merge_nodes fuel st sf tf with
        | MOut.ok sf2 st2 => MOut.ok (PNode.decorator sf2 sdecs sl sc) st2
        | MOut.exn k m => MOut.exn k m
        | MOut.out => MOut.out
    | _, _ => MOut.ok src st

/-- `MergeFiles.merge_class_assignment`, including its bug: the
`del stubs[src_name]` runs whether or not the name was found, so a
source class assignment with no stub counterpart raises `KeyError`. -/
def merge_class_assignment (fuel : Nat) (st : MergeSt) (src : PNode)
    (stubs : NodeMap) : MOut (PNode × NodeMap) :=
  match fuel with
  | 0 => MOut.out
  | fuel + 1 =>
    let (src_name, st) := simple_assignment_name st src false true
    match src_name with
    | none => MOut.ok (src, stubs) st
    | some n =>
      match assocLookup stubs n with
      | some stubNode =>
        (match merge_nodes fuel st src stubNode with
         | MOut.ok merged st2 => MOut.ok (merged, assocErase stubs n) st2
         | MOut.exn k m => MOut.exn k m
         | MOut.out => MOut.out)
      | none => MOut.exn "KeyError" n   -- `del stubs[src_name]` on an absent key

/-- `MergeFiles.merge_class_decorator`: merge and consume on a hit,
silently continue on a miss (this one is guarded, unlike the assignment
case). -/
def merge_class_decorator (fuel : Nat) (st : MergeSt) (src : PNode)
    (stub_funcs : NodeMap) : MOut (PNode × NodeMap) :=
  match fuel with
  | 0 => MOut.out
  | fuel + 1 =>
    let name := funcName src
    match assocLookup stub_funcs name with
    | some stub =>
      (match merge_nodes fuel st src stub with
       | MOut.ok merged st2 => MOut.ok (merged, assocErase stub_funcs name) st2
       | MOut.exn k m => MOut.exn k m
       | MOut.out => MOut.out)
    | none => MOut.ok (src, stub_funcs) st

/-- `MergeFiles.merge_class_func_def`: merge against the function map by
name (consuming the match), then for a constructor walk its body to
enrich attribute assignments from the stub assignment map. -/
def merge_class_func_def (fuel : Nat) (st : MergeSt) (src : PNode)
    (stub_assigns stub_funcs : NodeMap) : MOut (PNode × NodeMap × NodeMap) :=
  match fuel with
  | 0 => MOut.out
  | fuel + 1 =>
    let name := funcName src
    let step1 : MOut (PNode × NodeMap) :=
      match assocLookup stub_funcs name with
      | some stub =>
        (match merge_nodes fuel st src stub with
         | MOut.ok merged st2 => MOut.ok (merged, assocErase stub_funcs name) st2
         | MOut.exn k m => MOut.exn k m
         | MOut.out => MOut.out)
      | none => MOut.ok (src, stub_funcs) st
    match step1 with
    | MOut.exn k m => MOut.exn k m
    | MOut.out => MOut.out
    | MOut.ok (src2, funcs2) st2 =>
      if name = "__init__" then
        match src2 with
        | .funcDef fn fargs fkinds fty fu fbody fl fc =>
          let (fbody2, assigns2, st3) := initBodyWalk st2 fbody stub_assigns
          MOut.ok (PNode.funcDef fn fargs fkinds fty fu fbody2 fl fc, assigns2, funcs2) st3
        | _ => MOut.ok (src2, stub_assigns, funcs2) st2
      else
        MOut.ok (src2, stub_assigns, funcs2) st2

/-- The `for entry in src.defn.defs.body` reconciliation walk of
`merge_type_info`. -/
def classBodyWalk (fuel : Nat) (st : MergeSt) (entries : List PNode)
    (stub_assigns stub_funcs : NodeMap) :
    MOut (List PNode × NodeMap × NodeMap) :=
  match fuel with
  | 0 => MOut.out
  | fuel + 1 =>
    match entries with
    | [] => MOut.ok ([], stub_assigns, stub_funcs) st
    | entry :: rest =>
      let step : MOut (PNode × NodeMap × NodeMap) :=
        match entry with
        | .funcDef .. => merge_class_func_def fuel st entry stub_assigns stub_funcs
        | .assignmentStmt .. =>
          (match merge_class_assignment fuel st entry stub_assigns with
           | MOut.ok (e2, assigns2) st2 => MOut.ok (e2, assigns2, stub_funcs) st2
           | MOut.exn k m => MOut.exn k m
           | MOut.out => MOut.out)
        | .decorator .. =>
          (match merge_class_decorator fuel st entry stub_funcs with
           | MOut.ok (e2, funcs2) st2 => MOut.ok (e2, stub_assigns, funcs2) st2
           | MOut.exn k m => MOut.exn k m
           | MOut.out => MOut.out)
        | _ => MOut.ok (entry, stub_assigns, stub_funcs) st
      match step with
      | MOut.exn k m => MOut.exn k m
      | MOut.out => MOut.out
      | MOut.ok (entry2, assigns2, funcs2) st2 =>
        match classBodyWalk fuel st2 rest assigns2 funcs2 with
        | MOut.ok (rest2, assigns3, funcs3) st3 =>
          MOut.ok (entry2 :: rest2, assigns3, funcs3) st3
        | MOut.exn k m => MOut.exn k m
        | MOut.out => MOut.out

/-- `MergeFiles.merge_type_info`: copy class-level slots, merge the
nested symbol tables, copy the definition type variables, reconcile the
class bodies, and report unconsumed stub entries. -/
def merge_type_info (fuel : Nat) (st : MergeSt) (src stub : PNode) : MOut PNode :=
  match fuel with
  | 0 => MOut.out
  | fuel + 1 =>
    match src, stub with
    | .typeInfo snames _ _ _ sdn _ sbody sl sc,
      .typeInfo tnames ttv tmc trp _ tdtv tbody _ _ =>
      (match merge_symbol_tables fuel st snames tnames with
       | MOut.exn k m => MOut.exn k m
       | MOut.out => MOut.out
       | MOut.ok names2 st2 =>
         let (stub_assigns, stub_funcs, st3) := collect_assign_and_funcs st2 tbody [] []
         match classBodyWalk fuel st3 sbody stub_assigns stub_funcs with
         | MOut.exn k m => MOut.exn k m
         | MOut.out => MOut.out
         | MOut.ok (sbody2, assignsLeft, funcsLeft) st4 =>
           let st5 := reportLeftAssigns st4 assignsLeft
           let st6 := reportLeftFuncs st5 funcsLeft
           MOut.ok (PNode.typeInfo names2 ttv tmc trp sdn tdtv sbody2 sl sc) st6)
    | _, _ => MOut.ok src st

end

/-! ## Concrete fixtures used by counterexamples and witnesses -/

/-- A filesystem whose directory `d` lists an excluded entry
(`__pycache__`) followed by an ordinary source file. -/
def fsPycache : FSCache :=
  FSCache.mk (fun _ => false) (fun _ => false)
    (fun p => if p = ["d"] then ["__pycache__", "x.py"] else [])
    (fun _ => false) (fun _ => false)

/-- A filesystem whose directory `d` contains exactly an implementation
file `a.py` and an overlay file `a.pyi`. -/
def fsPair : FSCache :=
  FSCache.mk (fun _ => false) (fun _ => false)
    (fun p => if p = ["d"] then ["a.py", "a.pyi"] else [])
    (fun _ => false) (fun p => p = ["d", "a.pyi"])

/-- A filesystem whose directory `d` contains the implementation/overlay
pair `a.py`/`a.pyi` *and* an excluded entry (`__pycache__`), which sorts
first. -/
def fsPairX : FSCache :=
  FSCache.mk (fun _ => false) (fun _ => false)
    (fun p => if p = ["d"] then ["__pycache__", "a.py", "a.pyi"] else [])
    (fun _ => false) (fun p => p = ["d", "a.pyi"])

/-- A filesystem with a package directory `pkg-bad` (it has a marker
file) whose basename is not a valid Python identifier. -/
def fsBadPkg : FSCache :=
  FSCache.mk (fun p => p = ["pkg-bad", "__init__.pyi"]) (fun p => p = ["pkg-bad"])
    (fun _ => []) (fun _ => false) (fun _ => false)

/-! ## Theorems -/

theorem splitPath_concat (d : FPath) (x : String) : splitPath (d ++ [x]) = (d, x) := by
  simp [splitPath]

/-- **C2.** Claim: a class merge in which the implementation class body
contains a single-target name-assignment whose name is absent from the
overlay's assignment map does not raise.  The code does raise: in
`merge_class_assignment` the `del stubs[src_name]` at line 201 runs
whether or not the name was found in the map, so an unmatched name
raises `KeyError`.  Evaluation of the code at the failing input: an
implementation class whose body assigns `x` merged against an overlay
class declaring no assignments escapes with `KeyError` on `"x"`. -/
theorem C2_keyerror_on_unmatched_class_assignment :
    merge_nodes 10 initSt
      (PNode.typeInfo [] [] none false "C" []
        [PNode.assignmentStmt [PNode.nameExpr "x" 2 0] (PNode.otherNode "IntExpr" 2 4)
          none none 2 0] 1 0)
      (PNode.typeInfo [] [] none false "C" [] [] 1 0)
      = MOut.exn "KeyError" "x" := rfl

/-- **C4.** Claim: diagnostics without an explicit position default to
the line *and column* of the most recently entered node pair.  The code
sets both scoped slots from the node's **line** attribute
(`report_from_element` reads `getattr(src, "line", ...)` twice), so the
defaulted column is the node's line, not its column.  At the failing
input — a kind-mismatch pair whose implementation node sits at line 3,
column 7 — the emitted diagnostic carries column 3, not 7. -/
theorem C4_column_defaults_to_line :
    merge_nodes 10 initSt (PNode.var "v" none 3 7)
        (PNode.assignmentStmt [] (PNode.ellipsisExpr 9 0) none none 9 2)
      = MOut.ok (PNode.var "v" none 3 7)
          (MergeSt.mk (-1) 0
            [Diag.mk "conflict of src Var and stub:9 AssignmentStmt definition" 3 3])
    ∧ nodeColumn (PNode.var "v" none 3 7) = 7 := ⟨rfl, rfl⟩

/-- **C1, counterexample.** Merging an implementation assignment of type
token `1` with an overlay assignment of type token `2` whose assigned
value is a non-placeholder (`IntExpr`): the non-placeholder-default
error *is* reported, yet the implementation assignment's type and
unanalyzed-type slots are overwritten with the overlay's — the merge
mutates the implementation node on this reported conflict, refuting the
claim that a reported conflict leaves the node unchanged. -/
theorem C1_counterexample :
    merge_nodes 10 initSt
      (PNode.assignmentStmt [PNode.nameExpr "x" 1 0] (PNode.ellipsisExpr 1 4)
        (some 1) (some 11) 1 0)
      (PNode.assignmentStmt [PNode.nameExpr "x" 5 0] (PNode.otherNode "IntExpr" 5 4)
        (some 2) (some 22) 5 0)
      = MOut.ok
          (PNode.assignmentStmt [PNode.nameExpr "x" 1 0] (PNode.ellipsisExpr 1 4)
            (some 2) (some 22) 1 0)
          (MergeSt.mk (-1) 0
            [Diag.mk "stub should not contain default value, x has IntExpr" 1 1])
    ∧ (some 2 : Option MType) ≠ some 1 := ⟨rfl, by decide⟩

/-- **C5, counterexample.** Two decorator-wrapped functions whose single
call-expression decorator pair has equal callee names but positionally
unequal keyword-argument name lists (`a` vs `b`): the conflict is
reported, yet the underlying functions are merged anyway — the
implementation function's type/kind/unanalyzed slots take the overlay's
values (token `2` ≠ original token `1`), refuting "the underlying
implementation function is not merged". -/
theorem C5_counterexample :
    merge_nodes 10 initSt
      (PNode.decorator (PNode.funcDef "f" ["x"] [0] (some 1) (some 11) [] 2 0)
        [PNode.callExpr (PNode.nameExpr "dec" 1 1) [PNode.ellipsisExpr 1 5]
          [some "a"] 1 0] 1 0)
      (PNode.decorator (PNode.funcDef "f" ["x"] [5] (some 2) (some 22) [] 12 0)
        [PNode.callExpr (PNode.nameExpr "dec" 11 1) [PNode.ellipsisExpr 11 5]
          [some "b"] 11 0] 11 0)
      = MOut.ok
          (PNode.decorator (PNode.funcDef "f" ["x"] [5] (some 2) (some 22) [] 2 0)
            [PNode.callExpr (PNode.nameExpr "dec" 1 1) [PNode.ellipsisExpr 1 5]
              [some "a"] 1 0] 1 0)
          (MergeSt.mk (-1) 0
            [Diag.mk "conflict of src a and stub b decorator argument name" 1 1])
    ∧ (some 2 : Option MType) ≠ some 1 := ⟨rfl, by decide⟩

/-- On an excluded listing entry the loop body of `expand_dir` takes the
`continue` branch without advancing the iterator, so every amount of fuel
is exhausted with the state unchanged. -/
theorem expand_dir_loop_excluded_none (fs : FSCache) (m : Bool) (arg : FPath)
    (mp : String) (bd : FPath) (name : String) (hex : excludedName name = true) :
    ∀ (fuel : Nat) (it : List String) (seen : List String) (sources : List BuildSource),
      expand_dir_loop fuel fs m arg mp bd (some name) it seen sources = none := by
  intro fuel
  induction fuel with
  | zero => intro it seen sources; rfl
  | succ n ih =>
    intro it seen sources
    simp only [expand_dir_loop, hex, if_true]
    exact ih it seen sources

/-- **C3.** Claim: a directory whose listing contains an excluded entry
(`__pycache__`, `py.typed`, hidden, backup/compiled suffixes) expands to
a terminating list omitting that entry.  The code does not terminate:
the `continue` at `expand_dir`'s skip branch re-enters the `while` loop
without advancing the iterator, so an excluded entry loops forever.  At
the failing input — a directory listing `["__pycache__", "x.py"]` — the
fuelled model returns `none` (fuel exhausted) for *every* fuel, i.e. the
loop never reaches a result. -/
theorem C3_excluded_entry_diverges :
    ∀ fuel : Nat, expand_dir fuel fsPycache false ["d"] "" = none := by
  intro fuel
  match fuel with
  | 0 => rfl
  | n + 1 =>
    have h : expand_dir (n + 1) fsPycache false ["d"] ""
        = expand_dir_loop n fsPycache false ["d"] "" ["d"]
            (some "__pycache__") ["x.py"] [] [] := by
      rw [expand_dir]
      rfl
    rw [h]
    exact expand_dir_loop_excluded_none fsPycache false ["d"] "" ["d"] "__pycache__"
      (by decide) n ["x.py"] [] []

/-- Looking up any key of a key-`Nodup` association table returns that
entry. -/
theorem assocLookup_self {α : Type} :
    ∀ (tbl : List (String × α)), (tbl.map Prod.fst).Nodup →
      ∀ p ∈ tbl, assocLookup tbl p.1 = some p.2 := by
  intro tbl
  induction tbl with
  | nil => intro _ p hp; cases hp
  | cons hd rest ih =>
    intro hnd p hp
    have hnd2 := hnd
    rw [List.map_cons, List.nodup_cons] at hnd2
    cases hp with
    | head => simp [assocLookup]
    | tail _ hmem =>
      have hne : ¬ (hd.1 = p.1) := by
        intro he
        apply hnd2.1
        rw [he]
        exact List.mem_map_of_mem Prod.fst hmem
      simp only [assocLookup, if_neg hne]
      exact ih hnd2.2 p hmem

/-- When every remaining stub entry is present in the source table as
the identical object (equal object id and node), the symbol-table loop
skips every entry and changes nothing. -/
theorem merge_symbol_tables_skip_all (st : MergeSt) :
    ∀ (sub : SymTable) (fuel : Nat) (src : SymTable),
      (∀ p ∈ sub, assocLookup src p.1 = some p.2) →
      sub.length < fuel →
      merge_symbol_tables fuel st src sub = MOut.ok src st := by
  intro sub
  induction sub with
  | nil =>
    intro fuel src _ hfuel
    match fuel, hfuel with
    | n + 1, _ => rfl
  | cons hd rest ih =>
    intro fuel src hmem hfuel
    match fuel, hfuel with
    | n + 1, hfuel =>
      have hl : assocLookup src hd.1 = some hd.2 := hmem hd (List.mem_cons_self hd rest)
      simp only [merge_symbol_tables, hl, eq_self_iff_true, if_true]
      exact ih n src (fun p hp => hmem p (List.mem_cons_of_mem hd hp))
        (Nat.lt_of_succ_lt_succ hfuel)

/-- **C10.** Merging a symbol table into itself is a no-op: the
top-level symbol merge skips every name whose two entries are the same
object, so no node merge happens and no diagnostic is emitted — the
table and the merge state come back unchanged.  (Keys of a Python
`SymbolTable` are unique, whence the `Nodup` hypothesis; the fuel bound
only asks for enough steps to walk the table once.) -/
theorem C10_self_merge_noop (fuel : Nat) (st : MergeSt) (tbl : SymTable)
    (hnd : (tbl.map Prod.fst).Nodup) (hfuel : tbl.length < fuel) :
    merge_symbol_tables fuel st tbl tbl = MOut.ok tbl st := by
  exact merge_symbol_tables_skip_all st tbl fuel tbl (assocLookup_self tbl hnd) hfuel

/-- **C10, witness.** A concrete two-entry table merged into itself at
fuel 5. -/
theorem C10_self_merge_noop_witness :
    (([("x", (1 : Nat), PNode.var "x" (some 1) 1 0),
       ("y", (2 : Nat), PNode.funcDef "y" [] [] none none [] 2 0)].map
         (Prod.fst (α := String) (β := Nat × PNode))).Nodup ∧
      ([("x", (1 : Nat), PNode.var "x" (some 1) 1 0),
        ("y", (2 : Nat), PNode.funcDef "y" [] [] none none [] 2 0)] : SymTable).length < 5) ∧
    merge_symbol_tables 5 initSt
      [("x", 1, PNode.var "x" (some 1) 1 0),
       ("y", 2, PNode.funcDef "y" [] [] none none [] 2 0)]
      [("x", 1, PNode.var "x" (some 1) 1 0),
       ("y", 2, PNode.funcDef "y" [] [] none none [] 2 0)]
      = MOut.ok
        [("x", 1, PNode.var "x" (some 1) 1 0),
         ("y", 2, PNode.funcDef "y" [] [] none none [] 2 0)] initSt :=
  ⟨⟨by decide, by decide⟩,
    C10_self_merge_noop 5 initSt
      [("x", 1, PNode.var "x" (some 1) 1 0),
       ("y", 2, PNode.funcDef "y" [] [] none none [] 2 0)]
      (by decide) (by decide)⟩

/-- **C6.** For every pair of function definitions dispatched by the
merge: if the argument-name lists are exactly equal, the overlay's type,
argument kinds and unanalyzed type are copied onto the implementation
function and no diagnostic is emitted; otherwise the implementation
function comes back untouched and exactly one argument-conflict
diagnostic (at the implementation function's scoped position) is
appended. -/
theorem C6_func_merge (fuel : Nat) (st : MergeSt)
    (sn : String) (sargs : List String) (skinds : List Nat)
    (sty su : Option MType) (sbody : List PNode) (sl sc : Int)
    (tn : String) (targs : List String) (tkinds : List Nat)
    (tty tu : Option MType) (tbody : List PNode) (tl tc : Int) :
    (sargs = targs →
      merge_nodes (fuel + 1) st
        (PNode.funcDef sn sargs skinds sty su sbody sl sc)
        (PNode.funcDef tn targs tkinds tty tu tbody tl tc)
      = MOut.ok (PNode.funcDef sn sargs tkinds tty tu sbody sl sc) st) ∧
    (sargs ≠ targs →
      merge_nodes (fuel + 1) st
        (PNode.funcDef sn sargs skinds sty su sbody sl sc)
        (PNode.funcDef tn targs tkinds tty tu tbody tl tc)
      = MOut.ok (PNode.funcDef sn sargs skinds sty su sbody sl sc)
          (MergeSt.mk st.line st.column (st.diags ++
            [Diag.mk ("arg conflict of src " ++ reprStrList sargs ++
              " and stub (line " ++ toString tl ++ ") " ++ reprStrList targs)
              sl sl]))) := by
  constructor
  · intro h
    simp [merge_nodes, merge_func_definition, typeName, h, report]
  · intro h
    simp [merge_nodes, merge_func_definition, typeName, h, report, nodeLine]

/-- **C6, witness.** Equal lists `[x, y]` copy the overlay signature;
unequal lists `[x, z]` vs `[x, y]` leave the implementation unchanged
and report once. -/
theorem C6_func_merge_witness :
    (merge_nodes 3 initSt
        (PNode.funcDef "f" ["x", "y"] [0, 0] (some 1) (some 11) [] 2 0)
        (PNode.funcDef "f" ["x", "y"] [5, 5] (some 2) (some 22) [] 9 0)
      = MOut.ok (PNode.funcDef "f" ["x", "y"] [5, 5] (some 2) (some 22) [] 2 0) initSt) ∧
    (merge_nodes 3 initSt
        (PNode.funcDef "f" ["x", "z"] [0, 0] (some 1) (some 11) [] 2 0)
        (PNode.funcDef "f" ["x", "y"] [5, 5] (some 2) (some 22) [] 9 0)
      = MOut.ok (PNode.funcDef "f" ["x", "z"] [0, 0] (some 1) (some 11) [] 2 0)
          (MergeSt.mk (-1) 0 [Diag.mk
            ("arg conflict of src " ++ reprStrList ["x", "z"] ++
              " and stub (line " ++ toString (9 : Int) ++ ") " ++ reprStrList ["x", "y"])
            2 2])) :=
  ⟨(C6_func_merge 2 initSt "f" ["x", "y"] [0, 0] (some 1) (some 11) [] 2 0
      "f" ["x", "y"] [5, 5] (some 2) (some 22) [] 9 0).1 rfl,
   (C6_func_merge 2 initSt "f" ["x", "z"] [0, 0] (some 1) (some 11) [] 2 0
      "f" ["x", "y"] [5, 5] (some 2) (some 22) [] 9 0).2 (by decide)⟩

/-- **C1, amended.** Merging an implementation `AssignmentStmt` with an
overlay `AssignmentStmt` (single `NameExpr` target on the overlay side)
whose assigned value is not a placeholder reports the
non-placeholder-default error, but the implementation assignment's type
and unanalyzed-type slots are nevertheless overwritten with the
overlay's: the copy is unconditional and precedes the check. -/
theorem C1_amended_assignment_copies_despite_report (st : MergeSt)
    (lv : List PNode) (rv : PNode) (t u : Option MType) (l c : Int)
    (n : String) (nl nc : Int) (rv2 : PNode) (t2 u2 : Option MType) (l2 c2 : Int)
    (h : isEllipsisExpr rv2 = false) :
    merge_assignment st (PNode.assignmentStmt lv rv t u l c)
      (PNode.assignmentStmt [PNode.nameExpr n nl nc] rv2 t2 u2 l2 c2)
    = (PNode.assignmentStmt lv rv t2 u2 l c,
       report st ("stub should not contain default value, " ++ n ++ " has " ++
         typeName rv2) none none) := by
  simp [merge_assignment, simple_assignment_name, check_no_explicit_default,
    isTempNode, h, fmtOptStr]

/-- **C1, amended, witness.** The concrete instance of the amended claim
at the counterexample input. -/
theorem C1_amended_witness :
    isEllipsisExpr (PNode.otherNode "IntExpr" 5 4) = false ∧
    merge_assignment initSt
      (PNode.assignmentStmt [PNode.nameExpr "x" 1 0] (PNode.ellipsisExpr 1 4)
        (some 1) (some 11) 1 0)
      (PNode.assignmentStmt [PNode.nameExpr "x" 5 0] (PNode.otherNode "IntExpr" 5 4)
        (some 2) (some 22) 5 0)
    = (PNode.assignmentStmt [PNode.nameExpr "x" 1 0] (PNode.ellipsisExpr 1 4)
        (some 2) (some 22) 1 0,
       report initSt ("stub should not contain default value, " ++ "x" ++ " has " ++
         typeName (PNode.otherNode "IntExpr" 5 4)) none none) :=
  ⟨rfl, C1_amended_assignment_copies_despite_report initSt
    [PNode.nameExpr "x" 1 0] (PNode.ellipsisExpr 1 4) (some 1) (some 11) 1 0
    "x" 5 0 (PNode.otherNode "IntExpr" 5 4) (some 2) (some 22) 5 0 rfl⟩

/-- **C5, amended.** For a decorator pair whose single call-expression
decorators have equal `NameExpr` callees but positionally unequal
keyword-argument name lists, the conflict is reported — and the two
underlying function nodes are merged anyway: `decorator_argument_checks`
returns `None`, so its conflicts do not break the decorator loop; only
decorator-kind and name mismatches prevent the merge of the underlying
functions. -/
theorem C5_amended_arg_conflict_still_merges (fuel : Nat) (st : MergeSt)
    (dn : String) (a b : Option String)
    (largs : List PNode) (nl1 nc1 cl1 cc1 : Int)
    (el ec nl2 nc2 cl2 cc2 : Int)
    (fn : String) (fargs : List String) (fkinds : List Nat)
    (fty fu : Option MType) (fbody : List PNode) (fl fc : Int)
    (gn : String) (gkinds : List Nat) (gty gu : Option MType)
    (gbody : List PNode) (gl gc : Int)
    (dl1 dc1 dl2 dc2 : Int)
    (hab : a ≠ b) :
    merge_nodes (fuel + 3) st
      (PNode.decorator (PNode.funcDef fn fargs fkinds fty fu fbody fl fc)
        [PNode.callExpr (PNode.nameExpr dn nl1 nc1) largs [a] cl1 cc1] dl1 dc1)
      (PNode.decorator (PNode.funcDef gn fargs gkinds gty gu gbody gl gc)
        [PNode.callExpr (PNode.nameExpr dn nl2 nc2) [PNode.ellipsisExpr el ec] [b] cl2 cc2] dl2 dc2)
    = MOut.ok
        (PNode.decorator (PNode.funcDef fn fargs gkinds gty gu fbody fl fc)
          [PNode.callExpr (PNode.nameExpr dn nl1 nc1) largs [a] cl1 cc1] dl1 dc1)
        (MergeSt.mk st.line st.column (st.diags ++
          [Diag.mk ("conflict of src " ++ fmtOptStr a ++ " and stub " ++ fmtOptStr b ++
            " decorator argument name") cl1 dl1])) := by
  simp [merge_nodes, merge_decorators, decoratorPairChecks, typeName, typeNameO,
    zipLongest, decorator_name_check, decorator_argument_checks, argNameLoop,
    defaultLoop, check_no_explicit_default, isTempNode, isEllipsisExpr, hab,
    merge_func_definition, report, nodeLine]

/-- **C5, amended, witness.** The concrete instance at the
counterexample input. -/
theorem C5_amended_witness :
    ((some "a" : Option String) ≠ some "b") ∧
    merge_nodes 3 initSt
      (PNode.decorator (PNode.funcDef "f" ["x"] [0] (some 1) (some 11) [] 2 0)
        [PNode.callExpr (PNode.nameExpr "dec" 1 1) [PNode.ellipsisExpr 1 5]
          [some "a"] 1 0] 1 0)
      (PNode.decorator (PNode.funcDef "f" ["x"] [5] (some 2) (some 22) [] 12 0)
        [PNode.callExpr (PNode.nameExpr "dec" 11 1) [PNode.ellipsisExpr 11 5]
          [some "b"] 11 0] 11 0)
    = MOut.ok
        (PNode.decorator (PNode.funcDef "f" ["x"] [5] (some 2) (some 22) [] 2 0)
          [PNode.callExpr (PNode.nameExpr "dec" 1 1) [PNode.ellipsisExpr 1 5]
            [some "a"] 1 0] 1 0)
        (MergeSt.mk (-1) 0 [Diag.mk ("conflict of src " ++ fmtOptStr (some "a") ++
          " and stub " ++ fmtOptStr (some "b") ++ " decorator argument name") 1 1]) :=
  ⟨by decide,
   C5_amended_arg_conflict_still_merges 0 initSt "dec" (some "a") (some "b")
     [PNode.ellipsisExpr 1 5] 1 1 1 0 11 5 11 1 11 0
     "f" ["x"] [0] (some 1) (some 11) [] 2 0
     "f" [5] (some 2) (some 22) [] 12 0 1 0 11 0 (by decide)⟩

/-- If no marker file is present in `dir`, `get_init_file` is `none`. -/
theorem get_init_file_none (fs : FSCache) (d : FPath)
    (h1 : fs.isfile (d ++ ["__init__.pyi"]) = false)
    (h2 : fs.isfile (d ++ ["__init__.py"]) = false)
    (h3 : fs.init_under_package_root (d ++ ["__init__.py"]) = false) :
    get_init_file fs d = none := by
  simp [get_init_file, h1, h2, h3]

/-- A nonempty directory with no marker file is its own base dir with an
empty module prefix (the stopping rule of identity resolution). -/
theorem crawl_up_dir_stop (fs : FSCache) (d : FPath) (hne : d ≠ [])
    (hinit : get_init_file fs d = none) :
    crawl_up_dir fs d = Except.ok ("", d) := by
  unfold crawl_up_dir
  match hrev : d.reverse with
  | [] => exact absurd (by simpa using congrArg List.reverse hrev) hne
  | b :: rev =>
    have hd : (b :: rev).reverse = d := by rw [← hrev, List.reverse_reverse]
    simp [crawl_up_dir_rev, hd, hinit]

/-- Supporting lemma for the dedupe behaviour: for a directory whose
listing is exactly the implementation/overlay pair (no excluded entries,
so the skip-branch bug is not reached), with overlay merging disabled,
expansion emits exactly one build unit and its primary path is the
overlay file — the sort puts `a.pyi` first, the base-name dedupe
(`seen`) consumes the slot, and the later `a.py` entry is skipped. -/
theorem expand_dir_pair_overlay_wins (fs : FSCache) (d : FPath) (hne : d ≠ [])
    (h1 : fs.isfile (d ++ ["__init__.pyi"]) = false)
    (h2 : fs.isfile (d ++ ["__init__.py"]) = false)
    (h3 : fs.init_under_package_root (d ++ ["__init__.py"]) = false)
    (h4 : fs.listdir d = ["a.py", "a.pyi"])
    (h5 : fs.isdir (d ++ ["a.pyi"]) = false)
    (h6 : fs.isdir (d ++ ["a.py"]) = false) :
    ∀ fuel : Nat, expand_dir (fuel + 4) fs false d ""
      = some (Except.ok
          [BuildSource.mk (some (d ++ ["a.pyi"])) (some "a") none (some d) none]) := by
  intro fuel
  have hinit := get_init_file_none fs d h1 h2 h3
  have hcrawl := crawl_up_dir_stop fs d hne hinit
  have hsort : sortNames ["a.py", "a.pyi"] = ["a.pyi", "a.py"] := rfl
  have e1 : excludedName "a.pyi" = false := rfl
  have e2 : excludedName "a.py" = false := rfl
  have s1 : splitext "a.pyi" = ("a", ".pyi") := rfl
  have s2 : splitext "a.py" = ("a", ".py") := rfl
  have c1 : strContains "a" '.' = false := rfl
  have p1 : pyExtensions.contains ".pyi" = true := rfl
  have l1 : ([] : List String).contains "a" = false := rfl
  have l2 : ["a"].contains "a" = true := rfl
  rw [expand_dir]
  simp only [hinit, hcrawl, h4, hsort]
  simp [expand_dir_loop, e1, e2, s1, s2, c1, p1, l1, l2, h5, h6]
  intro hnot
  exact absurd (by decide) hnot

/-- The concrete instance of `expand_dir_pair_overlay_wins` at the
filesystem `fsPair` and directory `["d"]`, fuel 5. -/
theorem expand_dir_pair_overlay_wins_example :
    (["d"] : FPath) ≠ [] ∧
    expand_dir 5 fsPair false ["d"] ""
      = some (Except.ok
          [BuildSource.mk (some ["d", "a.pyi"]) (some "a") none (some ["d"]) none]) :=
  ⟨by decide,
   expand_dir_pair_overlay_wins fsPair ["d"] (by decide) rfl rfl rfl rfl rfl rfl 1⟩

/-- **C7.** Claim: for every directory containing both an implementation
file and an overlay file with the same base name, with overlay merging
disabled, expansion emits exactly one build unit for that base name,
with the overlay as its primary path.  That is the spec's intent (the
dedupe does behave that way on listings free of excluded entries, see
`expand_dir_pair_overlay_wins`), but the code violates the claim: on a
qualifying directory whose listing also contains an excluded entry —
here `["__pycache__", "a.py", "a.pyi"]` — the skip branch of
`expand_dir`'s listing walk `continue`s without advancing the iterator,
so expansion loops forever before the pair is reached and no unit is
ever emitted.  The fuelled model returns `none` (fuel exhausted) at
*every* fuel for this failing input. -/
theorem C7_pair_with_excluded_entry_diverges :
    ∀ fuel : Nat, expand_dir fuel fsPairX false ["d"] "" = none := by
  intro fuel
  match fuel with
  | 0 => rfl
  | n + 1 =>
    have h : expand_dir (n + 1) fsPairX false ["d"] ""
        = expand_dir_loop n fsPairX false ["d"] "" ["d"]
            (some "__pycache__") ["a.pyi", "a.py"] [] [] := by
      rw [expand_dir]
      rfl
    rw [h]
    exact expand_dir_loop_excluded_none fsPairX false ["d"] "" ["d"] "__pycache__"
      (by decide) n ["a.pyi", "a.py"] [] []

/-- A one-element list is returned unchanged by the partition-and-concat
preprocessing of `create_source_list`. -/
theorem partition_singleton (pred : FPath → Bool) (x : FPath) :
    ([x].filter (fun f => !(pred f))) ++ [x].filter pred = [x] := by
  cases h : pred x <;> simp [List.filter, h]

/-- **C8.** With overlay merging enabled, the explicit argument lists
`[impl, overlay]` and `[overlay, impl]` produce the identical single
build unit: primary path the implementation file, `merge_with` the
overlay — the partition always processes the implementation file first,
and processing it marks the overlay as already found. -/
theorem C8_explicit_pair_order_insensitive (fs : FSCache) (d : FPath)
    (pre : String) (bdir : FPath) (sm : Bool) (fuel : Nat) (aed : Bool)
    (hcrawl : crawl_up_dir fs d = Except.ok (pre, bdir))
    (hstub : fs.path_exists (d ++ ["a.pyi"]) = true) :
    create_source_list fuel [d ++ ["a.py"], d ++ ["a.pyi"]]
        (Options.mk true sm) fs aed
      = some (Except.ok
          [BuildSource.mk (some (d ++ ["a.py"])) (some (module_join pre "a")) none
            (some bdir)
            (some (BuildSource.mk (some (d ++ ["a.pyi"])) (some (module_join pre "a"))
              none (some bdir) none))]) ∧
    create_source_list fuel [d ++ ["a.pyi"], d ++ ["a.py"]]
        (Options.mk true sm) fs aed
      = some (Except.ok
          [BuildSource.mk (some (d ++ ["a.py"])) (some (module_join pre "a")) none
            (some bdir)
            (some (BuildSource.mk (some (d ++ ["a.pyi"])) (some (module_join pre "a"))
              none (some bdir) none))]) := by
  have hw1 : strEndsWith "a.py" ".pyi" = false := rfl
  have hw2 : strEndsWith "a.pyi" ".pyi" = true := rfl
  have hsp : strip_py "a.py" = some "a" := rfl
  have hse : splitext "a.py" = ("a", ".py") := rfl
  have happ : "a" ++ ".pyi" = "a.pyi" := rfl
  have hna : ¬ ("a" = "__init__") := by decide
  have hnb : ¬ ("a" = "") := by decide
  have hcu : crawl_up fs (d ++ ["a.py"]) = Except.ok (module_join pre "a", bdir) := by
    simp [crawl_up, splitPath_concat, hsp, hcrawl, hna, hnb]
  have key : cslLoop fuel (Options.mk true sm) fs aed
      [d ++ ["a.py"], d ++ ["a.pyi"]] [] []
      = some (Except.ok
          [BuildSource.mk (some (d ++ ["a.py"])) (some (module_join pre "a")) none
            (some bdir)
            (some (BuildSource.mk (some (d ++ ["a.pyi"])) (some (module_join pre "a"))
              none (some bdir) none))]) := by
    simp [cslLoop, splitPath_concat, hse, hcu, happ, hstub]
    intro hnot
    exact absurd (by decide) hnot
  constructor
  · show create_source_list fuel [d ++ ["a.py"], d ++ ["a.pyi"]]
      (Options.mk true sm) fs aed = _
    simp only [create_source_list, partition, List.filter, endsWithPyi,
      List.getLast?_concat, hw1, hw2]
    exact key
  · show create_source_list fuel [d ++ ["a.pyi"], d ++ ["a.py"]]
      (Options.mk true sm) fs aed = _
    simp only [create_source_list, partition, List.filter, endsWithPyi,
      List.getLast?_concat, hw1, hw2]
    exact key

/-- **C8, witness.** The concrete filesystem `fsPair` (directory `d`
holding `a.py` and `a.pyi`). -/
theorem C8_explicit_pair_order_insensitive_witness :
    crawl_up_dir fsPair ["d"] = Except.ok ("", ["d"]) ∧
    fsPair.path_exists (["d"] ++ ["a.pyi"]) = true ∧
    (create_source_list 1 [["d"] ++ ["a.py"], ["d"] ++ ["a.pyi"]]
        (Options.mk true false) fsPair false
      = some (Except.ok
          [BuildSource.mk (some (["d"] ++ ["a.py"])) (some (module_join "" "a")) none
            (some ["d"])
            (some (BuildSource.mk (some (["d"] ++ ["a.pyi"])) (some (module_join "" "a"))
              none (some ["d"]) none))]) ∧
     create_source_list 1 [["d"] ++ ["a.pyi"], ["d"] ++ ["a.py"]]
        (Options.mk true false) fsPair false
      = some (Except.ok
          [BuildSource.mk (some (["d"] ++ ["a.py"])) (some (module_join "" "a")) none
            (some ["d"])
            (some (BuildSource.mk (some (["d"] ++ ["a.pyi"])) (some (module_join "" "a"))
              none (some ["d"]) none))])) :=
  ⟨rfl, rfl,
   C8_explicit_pair_order_insensitive fsPair ["d"] "" ["d"] false 1 false rfl rfl⟩

/-- A package directory (marker file present) whose nonempty basename is
not a valid identifier makes identity resolution fail with the
invalid-package-name error. -/
theorem crawl_up_dir_invalid (fs : FSCache) (parent : FPath) (b : String)
    (hb : b ≠ "") (hinit : get_init_file fs (parent ++ [b]) ≠ none)
    (hbad : isPyIdentifier b = false) :
    crawl_up_dir fs (parent ++ [b])
      = Except.error (b ++ " is not a valid Python package name") := by
  unfold crawl_up_dir
  have hrev : (parent ++ [b]).reverse = b :: parent.reverse := by simp
  rw [hrev]
  have hback : (b :: parent.reverse).reverse = parent ++ [b] := by simp
  cases hgi : get_init_file fs (parent ++ [b]) with
  | none => exact absurd hgi hinit
  | some i => simp [crawl_up_dir_rev, hback, hgi, hb, hbad]

/-- **C9.** When discovery resolves the identity of a package directory
(a directory with a marker file) whose basename is not a valid bare
identifier, it fails with the invalid-source-list error and returns no
build-unit list at all — in the explicit-file path (a `.py` file inside
the package) and in the directory-expansion path (the directory given as
an argument) alike. -/
theorem C9_invalid_package_name_aborts (fs : FSCache) (parent : FPath)
    (b : String) (fuel : Nat) (opts : Options) (aed : Bool)
    (hb : b ≠ "") (hinit : get_init_file fs (parent ++ [b]) ≠ none)
    (hbad : isPyIdentifier b = false)
    (hdir : fs.isdir (parent ++ [b]) = true)
    (hext : (splitext b).2 ∉ pyExtensions) :
    crawl_up_dir fs (parent ++ [b])
      = Except.error (b ++ " is not a valid Python package name") ∧
    create_source_list fuel [parent ++ [b] ++ ["a.py"]] opts fs aed
      = some (Except.error (b ++ " is not a valid Python package name")) ∧
    create_source_list (fuel + 1) [parent ++ [b]] opts fs aed
      = some (Except.error (b ++ " is not a valid Python package name")) := by
  have hcrawl := crawl_up_dir_invalid fs parent b hb hinit hbad
  refine ⟨hcrawl, ?_, ?_⟩
  · have hw1 : strEndsWith "a.py" ".pyi" = false := rfl
    have hse : splitext "a.py" = ("a", ".py") := rfl
    have hsplit : splitPath (parent ++ [b, "a.py"]) = (parent ++ [b], "a.py") := by
      have h0 := splitPath_concat (parent ++ [b]) "a.py"
      simpa using h0
    have hlast : (parent ++ [b, "a.py"]).getLast? = some "a.py" := by
      rw [show parent ++ [b, "a.py"] = (parent ++ [b]) ++ ["a.py"] by simp]
      exact List.getLast?_concat _
    have hep : endsWithPyi (parent ++ [b, "a.py"]) = false := by
      simp [endsWithPyi, hlast, hw1]
    have hcu : crawl_up fs (parent ++ [b, "a.py"])
        = Except.error (b ++ " is not a valid Python package name") := by
      simp [crawl_up, hsplit, hcrawl]
    simp [create_source_list, partition, List.filter, hep, cslLoop, hsplit, hse, hcu]
    intro hnot
    exact absurd (by decide) hnot
  · have hcsl : cslLoop (fuel + 1) opts fs aed [parent ++ [b]] [] []
        = some (Except.error (b ++ " is not a valid Python package name")) := by
      have hexp : expand_dir (fuel + 1) fs opts.merge_stub_into_src (parent ++ [b]) ""
          = some (Except.error (b ++ " is not a valid Python package name")) := by
        rw [expand_dir]
        cases hgi : get_init_file fs (parent ++ [b]) with
        | none => exact absurd hgi hinit
        | some i => simp [hgi, hcrawl]
      simp [cslLoop, splitPath_concat, hext, hdir, hexp]
    show (match partition endsWithPyi [parent ++ [b]] with
      | (other, stubs) => cslLoop (fuel + 1) opts fs aed (other ++ stubs) [] []) = _
    cases hE : endsWithPyi (parent ++ [b]) with
    | false => simpa [partition, List.filter, hE] using hcsl
    | true => simpa [partition, List.filter, hE] using hcsl

/-- **C9, witness.** The concrete filesystem `fsBadPkg`, package
directory `pkg-bad` with an `__init__.pyi` marker. -/
theorem C9_invalid_package_name_aborts_witness :
    ("pkg-bad" ≠ "" ∧ get_init_file fsBadPkg ([] ++ ["pkg-bad"]) ≠ none ∧
      isPyIdentifier "pkg-bad" = false ∧ fsBadPkg.isdir ([] ++ ["pkg-bad"]) = true ∧
      (splitext "pkg-bad").2 ∉ pyExtensions) ∧
    (crawl_up_dir fsBadPkg ([] ++ ["pkg-bad"])
      = Except.error ("pkg-bad" ++ " is not a valid Python package name") ∧
     create_source_list 1 [[] ++ ["pkg-bad"] ++ ["a.py"]] (Options.mk true false)
        fsBadPkg false
      = some (Except.error ("pkg-bad" ++ " is not a valid Python package name")) ∧
     create_source_list 2 [[] ++ ["pkg-bad"]] (Options.mk true false) fsBadPkg false
      = some (Except.error ("pkg-bad" ++ " is not a valid Python package name"))) :=
  ⟨⟨by decide, by decide, by decide, rfl, by decide⟩,
   C9_invalid_package_name_aborts fsBadPkg [] "pkg-bad" 1 (Options.mk true false)
     false (by decide) (by decide) (by decide) rfl (by decide)⟩
